import Mathlib

/-!
Verification of the nonce-propagation and HTML-rewriting engine of the
`vite-plugin-csp-dev` plugin (`src/secureHeadersPlugin.js`).

HTML documents, nonces and header values are modelled as `List Char`
(the logical model of JavaScript strings); every JS string operation used
by the plugin (`String.prototype.replaceAll` with a literal pattern,
`String.prototype.replace` with a literal pattern or with the two concrete
`<link>` regexes, `includes`, `trim`, `endsWith`) is given an executable
model below.  JS `$`-substitution patterns inside replacement strings are
not modelled: none of the plugin's replacement texts contains `$` once the
template literals are interpolated, and the nonces produced by the plugin
are base64 text.
-/

set_option maxRecDepth 20000

namespace CspDev

/-- JavaScript strings, modelled as lists of characters. -/
abbrev Str := List Char

/-- The set of characters matched by the JS regex class `\s` (which is also
the set trimmed by `String.prototype.trim`). -/
def isJsWs (c : Char) : Bool :=
  c == ' ' || c == '\t' || c == '\n' || c == '\r' || c == '\x0b' || c == '\x0c' ||
  c == '\u00A0' || c == '\u1680' ||
  c == '\u2000' || c == '\u2001' || c == '\u2002' || c == '\u2003' || c == '\u2004' ||
  c == '\u2005' || c == '\u2006' || c == '\u2007' || c == '\u2008' || c == '\u2009' ||
  c == '\u200A' || c == '\u2028' || c == '\u2029' || c == '\u202F' || c == '\u205F' ||
  c == '\u3000' || c == '\uFEFF'

/-- `containsSub pat l` models JS `l.includes(pat)`: does `pat` occur as a
contiguous substring of `l`? -/
def containsSub (pat : Str) : Str → Bool
  | [] => pat.isEmpty
  | c :: cs => pat.isPrefixOf (c :: cs) || containsSub pat cs

/-- Number of positions of `l` at which `pat` starts (for nonempty `pat`,
the number of occurrences of `pat` in `l`, counting overlapping ones). -/
def countPrefixOcc (pat : Str) : Str → Nat
  | [] => 0
  | c :: cs => (if pat.isPrefixOf (c :: cs) then 1 else 0) + countPrefixOcc pat cs

/-- JS `l.replace(pat, repl)` for a literal (string) pattern: replace the
first occurrence of `pat` only; identity when `pat` does not occur. -/
def replaceFirst (pat repl : Str) : Str → Str
  | [] => []
  | c :: cs =>
    if pat.isPrefixOf (c :: cs) then repl ++ (c :: cs).drop pat.length
    else c :: replaceFirst pat repl cs

/-- Fuelled worker for `replaceAllL`; the fuel only has to dominate the
length of the input, since every step consumes at least one character. -/
def replaceAllFuel (pat repl : Str) : Nat → Str → Str
  | 0, l => l
  | _ + 1, [] => []
  | fuel + 1, c :: cs =>
    if pat.isPrefixOf (c :: cs) then repl ++ replaceAllFuel pat repl fuel ((c :: cs).drop pat.length)
    else c :: replaceAllFuel pat repl fuel cs

/-- JS `l.replaceAll(pat, repl)` for a literal nonempty pattern: replace
every occurrence of `pat`, scanning left to right and never rescanning the
replacement text. -/
def replaceAllL (pat repl : Str) (l : Str) : Str :=
  replaceAllFuel pat repl l.length l

/-- Fuelled worker for `splitOnL`. -/
def splitOnFuel (pat : Str) : Nat → Str → List Str
  | 0, l => [l]
  | _ + 1, [] => [[]]
  | fuel + 1, c :: cs =>
    if pat.isPrefixOf (c :: cs) then [] :: splitOnFuel pat fuel ((c :: cs).drop pat.length)
    else
      match splitOnFuel pat fuel cs with
      | [] => [[c]]
      | s :: ss => (c :: s) :: ss

/-- Split `l` at every occurrence of `pat` (leftmost-first, non-overlapping),
returning the list of the intervening segments, as JS `l.split(pat)` does. -/
def splitOnL (pat : Str) (l : Str) : List Str :=
  splitOnFuel pat l.length l

/-- Interleave the separator `sep` between consecutive segments. -/
def joinWith (sep : Str) : List Str → Str
  | [] => []
  | [x] => x
  | x :: y :: rest => x ++ sep ++ joinWith sep (y :: rest)

/-- Modelled from the spec: the effect claimed for script/style tagging,
"every occurrence of the opening token gets the attribute text inserted
immediately after it" — i.e. the document is cut at the occurrences of
`tok` and rejoined with `tok ++ ins` in place of each occurrence. -/
def insertAfterOccurrences (tok ins : Str) (l : Str) : Str :=
  joinWith (tok ++ ins) (splitOnL tok l)

-- Smoke checks of the string model against JS behaviour.
example : "abc".data = ['a', 'b', 'c'] := rfl
example : replaceAllL ("ab".data) ("X".data) ("abcabd".data) = "XcXd".data := by decide
example : replaceFirst ("b".data) ("XX".data) ("abcb".data) = "aXXcb".data := by decide
example : containsSub ("bc".data) ("abcd".data) = true := by decide
example : countPrefixOcc ("aa".data) ("aaa".data) = 2 := by decide
example : splitOnL ("b".data) ("abcb".data) = ["a".data, "c".data, [] ] := by decide

/-- JS `String.prototype.trim`: drop leading and trailing whitespace. -/
def trimJs (l : Str) : Str :=
  ((l.dropWhile isJsWs).reverse.dropWhile isJsWs).reverse

/-- JS `attributes.replace(/\s*\/\s*$/, '')`: when the text ends with a `/`
surrounded by (possibly empty) whitespace, remove that trailing `/` together
with the whitespace around it; otherwise leave the text alone. -/
def stripSelfClose (l : Str) : Str :=
  let r := l.reverse.dropWhile isJsWs
  if r.headD ' ' == '/' then ((r.drop 1).dropWhile isJsWs).reverse else l

/-- The replacement callback applied to the captured attribute text of every
`<link ...>` match (lines 183-188 and 215-220 of the source are identical):
trim a trailing self-closing slash, append ` nonce="<value>"` unless a
`nonce=` attribute is already present, and rebuild the element as
`<link ` + trimmed attribute text + `>`. -/
def linkReplacement (nonce attributes : Str) : Str :=
  let a1 := stripSelfClose attributes
  let a2 :=
    if containsSub ("nonce=".data) a1 then a1
    else a1 ++ " nonce=\"".data ++ nonce ++ "\"".data
  "<link ".data ++ trimJs a2 ++ ">".data

/-- Fuelled worker modelling the global regex replace
`html.replace(/<link\s+([^>]*)>/g, callback)` used by `transformIndexHtml`:
a match needs the literal `<link`, at least one whitespace character, and a
closing `>`; the capture is everything between the whitespace run and the
first `>`. Scanning resumes after the consumed `>`. -/
def scanLinksFuel (nonce : Str) : Nat → Str → Str
  | 0, l => l
  | _ + 1, [] => []
  | fuel + 1, c :: cs =>
    if ("<link".data).isPrefixOf (c :: cs) then
      let r1 := (c :: cs).drop 5
      let wsp := r1.takeWhile isJsWs
      let r2 := r1.dropWhile isJsWs
      if wsp.isEmpty || !(r2.contains '>') then c :: scanLinksFuel nonce fuel cs
      else
        linkReplacement nonce (r2.takeWhile (fun d => !(d == '>'))) ++
          scanLinksFuel nonce fuel ((r2.dropWhile (fun d => !(d == '>'))).drop 1)
    else c :: scanLinksFuel nonce fuel cs

/-- The group-1 capture of the bundle-phase regex `/<link\s+([^>]*?)(\/?\s*>)/g`
on the text `r` lying between the whitespace run and the first `>`: the lazy
capture concedes to group 2 the longest suffix of `r` made of an optional `/`
followed by whitespace. -/
def lazyAttrs (r : Str) : Str :=
  let t := r.reverse.dropWhile isJsWs
  if t.headD ' ' == '/' then (t.drop 1).reverse else t.reverse

/-- Fuelled worker modelling the bundle-phase global regex replace
`source.replace(/<link\s+([^>]*?)(\/?\s*>)/g, callback)`. -/
def scanLinksBundleFuel (nonce : Str) : Nat → Str → Str
  | 0, l => l
  | _ + 1, [] => []
  | fuel + 1, c :: cs =>
    if ("<link".data).isPrefixOf (c :: cs) then
      let r1 := (c :: cs).drop 5
      let wsp := r1.takeWhile isJsWs
      let r2 := r1.dropWhile isJsWs
      if wsp.isEmpty || !(r2.contains '>') then c :: scanLinksBundleFuel nonce fuel cs
      else
        linkReplacement nonce (lazyAttrs (r2.takeWhile (fun d => !(d == '>')))) ++
          scanLinksBundleFuel nonce fuel ((r2.dropWhile (fun d => !(d == '>'))).drop 1)
    else c :: scanLinksBundleFuel nonce fuel cs

/-- Step 1 of the rewrite: `html.replaceAll('<script', `<script nonce="${nonce}"`)`. -/
def tagScripts (nonce html : Str) : Str :=
  replaceAllL ("<script".data) ("<script nonce=\"".data ++ nonce ++ "\"".data) html

/-- Step 2 of the rewrite: `html.replaceAll('<style', `<style nonce="${nonce}"`)`. -/
def tagStyles (nonce html : Str) : Str :=
  replaceAllL ("<style".data) ("<style nonce=\"".data ++ nonce ++ "\"".data) html

/-- Step 3 of the dev-phase rewrite: the `linkRegex` replace of `transformIndexHtml`. -/
def tagLinks (nonce html : Str) : Str := scanLinksFuel nonce html.length html

/-- Step 3 of the bundle-phase rewrite: the `linkRegex` replace of `generateBundle`. -/
def tagLinksBundle (nonce html : Str) : Str := scanLinksBundleFuel nonce html.length html

/-- Step 4 of the rewrite: `html.replaceAll('style="', `style="nonce="${nonce}" `)`. -/
def tagStyleAttrs (nonce html : Str) : Str :=
  replaceAllL ("style=\"".data) ("style=\"nonce=\"".data ++ nonce ++ "\" ".data) html

/-- The `injectNonceScript` template literal of `transformIndexHtml`, with the
four `${nonce}` interpolations applied (braces are written `\x7b`/`\x7d` and
apostrophes `\x27`; the text is otherwise byte-identical to the source). -/
def injectNonceScript (nonce : Str) : Str :=
  "\n        <script nonce=\"".data ++ nonce ++
  ("\">\n          (function() \x7b\n            const originalCreateElement = document.createElement;\n            document.createElement = function() \x7b\n              const element = originalCreateElement.apply(document, arguments);\n              if (arguments[0].toLowerCase() === \x27style\x27 || arguments[0].toLowerCase() === \x27script\x27) \x7b\n                element.nonce = \"").data ++ nonce ++
  ("\";\n              \x7d\n              return element;\n            \x7d;\n            // Override insertBefore to add nonce to dynamically inserted style tags\n            const originalInsertBefore = Element.prototype.insertBefore;\n            Element.prototype.insertBefore = function(newNode, referenceNode) \x7b\n              if (newNode.tagName && newNode.tagName.toLowerCase() === \x27style\x27 && !newNode.nonce) \x7b\n                newNode.nonce = \"").data ++ nonce ++
  ("\";\n              \x7d\n              return originalInsertBefore.call(this, newNode, referenceNode);\n            \x7d;\n            // Override appendChild to add nonce to dynamically inserted style tags\n            const originalAppendChild = Element.prototype.appendChild;\n            Element.prototype.appendChild = function(newNode) \x7b\n              if (newNode.tagName && newNode.tagName.toLowerCase() === \x27style\x27 && !newNode.nonce) \x7b\n                newNode.nonce = \"").data ++ nonce ++
  ("\";\n              \x7d\n              return originalAppendChild.call(this, newNode);\n            \x7d;\n          \x7d)();\n        </script>\n      ").data

/-- Steps 1-4 of `transformIndexHtml`: script, style, link and inline-style
tagging, in the source's order, without the shim insertion. -/
def devTagSteps (nonce html : Str) : Str :=
  tagStyleAttrs nonce (tagLinks nonce (tagStyles nonce (tagScripts nonce html)))

/-- The plugin's `transformIndexHtml(html, _ctx)` hook: steps 1-4, then the
dynamic-injection shim is spliced in front of the first `</head>`. -/
def transformIndexHtml (nonce html : Str) : Str :=
  replaceFirst ("</head>".data) (injectNonceScript nonce ++ "</head>".data)
    (devTagSteps nonce html)

-- Smoke checks of the rewriter against the spec's §8 examples.
example :
    transformIndexHtml ("abc".data) ("<script src=\"a.js\"></script>".data) =
      "<script nonce=\"abc\" src=\"a.js\"></script>".data := by decide
example :
    transformIndexHtml ("abc".data) ("<link rel=\"stylesheet\" href=\"a.css\">".data) =
      "<link rel=\"stylesheet\" href=\"a.css\" nonce=\"abc\">".data := by decide
example :
    transformIndexHtml ("abc".data) ("<link rel=\"stylesheet\" href=\"a.css\" nonce=\"abc\">".data) =
      "<link rel=\"stylesheet\" href=\"a.css\" nonce=\"abc\">".data := by decide
example :
    transformIndexHtml ("abc".data) ("<div style=\"color:red\">".data) =
      "<div style=\"nonce=\"abc\" color:red\">".data := by decide
example : stripSelfClose ("a=b /  ".data) = "a=b".data := by decide
example : stripSelfClose ("a=b ".data) = "a=b ".data := by decide
example : lazyAttrs ("a=b /".data) = "a=b ".data := by decide
-- A document with no `</head>` in which the link step manufactures one.
example :
    containsSub ("</head>".data) ("<link nonce=x </head >".data) = false := by decide
example :
    containsSub ("createElement".data)
      (transformIndexHtml ("abc".data) ("<link nonce=x </head >".data)) = true := by decide

/-- The options record of `secureHeadersPlugin(options)`, after the
destructuring defaults of the source have been applied; `scriptSrc` and
`styleSrc` are the optional nonce-to-directive functions. -/
structure Options where
  reportOnly : Bool
  processI18n : Bool
  defaultSrc : Str
  noncePlaceholder : Str
  xssProtection : Str
  frameOptions : Str
  contentTypeOptions : Str
  referrerPolicy : Str
  permissionsPolicy : Str
  cacheControl : Str
  scriptSrc : Option (Str → Str)
  styleSrc : Option (Str → Str)
  imgSrc : Str
  fontSrc : Str
  objectSrc : Str
  frameSrc : Str
  baseUri : Str
  formAction : Str
  frameAncestors : Str
  workerSrc : Str
  connectSrc : Str

/-- The defaults of the destructuring on lines 40-62 of the source
(apostrophes written `\x27`). -/
def defaultOptions : Options where
  reportOnly := false
  processI18n := false
  defaultSrc := "\x27self\x27".data
  noncePlaceholder := "NONCE_PLACEHOLDER".data
  xssProtection := "1; mode=block".data
  frameOptions := "DENY".data
  contentTypeOptions := "nosniff".data
  referrerPolicy := "strict-origin-when-cross-origin".data
  permissionsPolicy := "camera=(), microphone=(), geolocation=()".data
  cacheControl := "no-store, max-age=0".data
  scriptSrc := none
  styleSrc := none
  imgSrc := "\x27self\x27 data:".data
  fontSrc := "\x27self\x27".data
  objectSrc := "\x27none\x27".data
  frameSrc := "\x27self\x27".data
  baseUri := "\x27self\x27".data
  formAction := "\x27self\x27".data
  frameAncestors := "\x27none\x27".data
  workerSrc := "\x27self\x27".data
  connectSrc := "\x27self\x27".data

/-- `scriptSrc ? scriptSrc(nonce) : `'self' 'nonce-${nonce}'`` (middleware). -/
def scriptSrcValue (o : Options) (nonce : Str) : Str :=
  match o.scriptSrc with
  | some f => f nonce
  | none => "\x27self\x27 \x27nonce-".data ++ nonce ++ "\x27".data

/-- `styleSrc ? styleSrc(nonce) : `'self' 'nonce-${nonce}'`` (middleware). -/
def styleSrcValue (o : Options) (nonce : Str) : Str :=
  match o.styleSrc with
  | some f => f nonce
  | none => "\x27self\x27 \x27nonce-".data ++ nonce ++ "\x27".data

/-- `[...].join('; ')`, as used for the `csp` array of the middleware. -/
def joinSemi (items : List Str) : Str := joinWith ("; ".data) items

/-- The `csp` policy string assembled by the middleware: thirteen clauses,
in the source's order, joined with `'; '`. -/
def csp (o : Options) (nonce : Str) : Str :=
  joinSemi [
    "default-src ".data ++ o.defaultSrc,
    "script-src ".data ++ scriptSrcValue o nonce,
    "style-src ".data ++ styleSrcValue o nonce,
    "img-src ".data ++ o.imgSrc,
    "font-src ".data ++ o.fontSrc,
    "object-src ".data ++ o.objectSrc,
    "base-uri ".data ++ o.baseUri,
    "frame-src ".data ++ o.frameSrc,
    "form-action ".data ++ o.formAction,
    "frame-ancestors ".data ++ o.frameAncestors,
    "worker-src ".data ++ o.workerSrc,
    "connect-src ".data ++ o.connectSrc,
    "upgrade-insecure-requests".data]

/-- `reportOnly ? 'Content-Security-Policy-Report-Only' : 'Content-Security-Policy'`. -/
def cspHeaderName (o : Options) : Str :=
  if o.reportOnly then "Content-Security-Policy-Report-Only".data
  else "Content-Security-Policy".data

/-- The auxiliary `setHeader` calls of the middleware, in source order; a
header whose configured value is the empty (falsy) string is omitted. -/
def auxHeaders (o : Options) : List (Str × Str) :=
  (if o.xssProtection.isEmpty then [] else [("X-XSS-Protection".data, o.xssProtection)]) ++
  (if o.frameOptions.isEmpty then [] else [("X-Frame-Options".data, o.frameOptions)]) ++
  (if o.contentTypeOptions.isEmpty then [] else [("X-Content-Type-Options".data, o.contentTypeOptions)]) ++
  (if o.referrerPolicy.isEmpty then [] else [("Referrer-Policy".data, o.referrerPolicy)]) ++
  (if o.permissionsPolicy.isEmpty then [] else [("Permissions-Policy".data, o.permissionsPolicy)]) ++
  (if o.cacheControl.isEmpty then [] else [("Cache-Control".data, o.cacheControl)])

/-- Every header the middleware registered by `configureServer` sets on a
response: the CSP header (under the report-only-dependent name), then the
auxiliary headers. -/
def emitHeaders (o : Options) (nonce : Str) : List (Str × Str) :=
  (cspHeaderName o, csp o nonce) :: auxHeaders o

/-- The two lifecycle phases: `configEnv.command === 'serve'` vs `'build'`. -/
inductive Command
  | serve
  | build
  deriving DecidableEq

/-- The plugin's shared state: the single `sharedNonce` variable closed over
by every hook. -/
structure PluginState where
  sharedNonce : Str
  deriving DecidableEq

/-- The `configResolved` hook: the nonce is computed exactly once, here — a
fresh `createNonce()` digest when serving (the sha256 digest from
`node:crypto` is not modelled; the run is parameterized by the function
`createNonce` of the resolution-time timestamp), and the configured
placeholder verbatim when building. -/
def configResolved (createNonce : Nat → Str) (now : Nat) (o : Options) (cmd : Command) :
    PluginState :=
  ⟨if cmd = Command.serve then createNonce now else o.noncePlaceholder⟩

/-- One pass of the middleware over a request: emit the headers computed from
the shared nonce and pass the (unchanged) state onward to the next request. -/
def middleware (o : Options) (st : PluginState) : List (Str × Str) × PluginState :=
  (emitHeaders o st.sharedNonce, st)

/-- The `transformIndexHtml` hook reads the shared nonce. -/
def transformHtmlHook (st : PluginState) (html : Str) : Str :=
  transformIndexHtml st.sharedNonce html

/-- `chunk.type` of a rollup output entry: `'asset'` or `'chunk'` (code). -/
inductive ChunkKind
  | asset
  | chunk
  deriving DecidableEq

/-- A rollup output-bundle entry; `others` stands for the remaining fields of
the JS object, which the spread `{...chunk, source: ...}` copies unchanged. -/
structure OutputChunk where
  kind : ChunkKind
  fileName : Str
  source : Str
  others : List (Str × Str)
  deriving DecidableEq

/-- The body applied to each bundle entry by `generateBundle`: an `'asset'`
whose `fileName` ends in `.html` has its source rewritten by tagging steps
1-4 (with the bundle link regex and no shim step); every other entry is
passed through untouched. -/
def rewriteChunk (nonce : Str) (chunk : OutputChunk) : OutputChunk :=
  if chunk.kind = ChunkKind.asset ∧ (".html".data).isSuffixOf chunk.fileName then
    { chunk with source :=
        tagStyleAttrs nonce (tagLinksBundle nonce (tagStyles nonce (tagScripts nonce chunk.source))) }
  else chunk

/-- The `generateBundle` hook: `Object.keys(bundle).reduce((acc, fileName) =>
({...acc, [fileName]: ...}), {})` rebuilds the keyed collection entry by
entry, in key order. -/
def generateBundle (nonce : Str) (bundle : List (Str × OutputChunk)) :
    List (Str × OutputChunk) :=
  bundle.foldl (fun acc e => acc ++ [(e.1, rewriteChunk nonce e.2)]) []

/-- The `generateBundle` hook reads the shared nonce. -/
def generateBundleHook (st : PluginState) (bundle : List (Str × OutputChunk)) :
    List (Str × OutputChunk) :=
  generateBundle st.sharedNonce bundle

/-- The twelve directive names, in the fixed order of the source. -/
def directiveNames : List Str :=
  ["default-src".data, "script-src".data, "style-src".data, "img-src".data,
   "font-src".data, "object-src".data, "base-uri".data, "frame-src".data,
   "form-action".data, "frame-ancestors".data, "worker-src".data, "connect-src".data]

/-- The twelve directive values, resolved for a given options record and nonce. -/
def resolvedValues (o : Options) (nonce : Str) : List Str :=
  [o.defaultSrc, scriptSrcValue o nonce, styleSrcValue o nonce, o.imgSrc,
   o.fontSrc, o.objectSrc, o.baseUri, o.frameSrc,
   o.formAction, o.frameAncestors, o.workerSrc, o.connectSrc]

-- Smoke check: the default policy for nonce `abc`.
example :
    csp defaultOptions ("abc".data) =
      ("default-src \x27self\x27; script-src \x27self\x27 \x27nonce-abc\x27; " ++
       "style-src \x27self\x27 \x27nonce-abc\x27; img-src \x27self\x27 data:; " ++
       "font-src \x27self\x27; object-src \x27none\x27; base-uri \x27self\x27; " ++
       "frame-src \x27self\x27; form-action \x27self\x27; frame-ancestors \x27none\x27; " ++
       "worker-src \x27self\x27; connect-src \x27self\x27; upgrade-insecure-requests").data := by
  decide


-- ### Basic lemmas about the string model

lemma isPrefixOf_self_append (x y : Str) : x.isPrefixOf (x ++ y) = true := by
  induction x with
  | nil => simp [List.isPrefixOf]
  | cons a as ih => simp [List.isPrefixOf, ih]

lemma containsSub_cons_false {pat : Str} {c : Char} {cs : Str}
    (h : containsSub pat (c :: cs) = false) :
    pat.isPrefixOf (c :: cs) = false ∧ containsSub pat cs = false := by
  simpa [containsSub] using h

lemma replaceAllFuel_id (pat repl : Str) :
    ∀ (fuel : Nat) (l : Str), containsSub pat l = false → replaceAllFuel pat repl fuel l = l
  | 0, _, _ => rfl
  | _ + 1, [], _ => rfl
  | fuel + 1, c :: cs, h => by
    have h2 := containsSub_cons_false h
    simp [replaceAllFuel, h2.1, replaceAllFuel_id pat repl fuel cs h2.2]

lemma replaceAllL_id {pat repl l : Str} (h : containsSub pat l = false) :
    replaceAllL pat repl l = l :=
  replaceAllFuel_id pat repl l.length l h

lemma replaceFirst_id (pat repl : Str) :
    ∀ (l : Str), containsSub pat l = false → replaceFirst pat repl l = l
  | [], _ => rfl
  | c :: cs, h => by
    have h2 := containsSub_cons_false h
    simp [replaceFirst, h2.1, replaceFirst_id pat repl cs h2.2]

lemma scanLinksFuel_id (nonce : Str) :
    ∀ (fuel : Nat) (l : Str), containsSub ("<link".data) l = false →
      scanLinksFuel nonce fuel l = l
  | 0, _, _ => rfl
  | _ + 1, [], _ => rfl
  | fuel + 1, c :: cs, h => by
    have h2 := containsSub_cons_false h
    simp [scanLinksFuel, h2.1, scanLinksFuel_id nonce fuel cs h2.2]

lemma scanLinksBundleFuel_id (nonce : Str) :
    ∀ (fuel : Nat) (l : Str), containsSub ("<link".data) l = false →
      scanLinksBundleFuel nonce fuel l = l
  | 0, _, _ => rfl
  | _ + 1, [], _ => rfl
  | fuel + 1, c :: cs, h => by
    have h2 := containsSub_cons_false h
    simp [scanLinksBundleFuel, h2.1, scanLinksBundleFuel_id nonce fuel cs h2.2]

lemma tagScripts_id {nonce l : Str} (h : containsSub ("<script".data) l = false) :
    tagScripts nonce l = l := replaceAllL_id h

lemma tagStyles_id {nonce l : Str} (h : containsSub ("<style".data) l = false) :
    tagStyles nonce l = l := replaceAllL_id h

lemma tagStyleAttrs_id {nonce l : Str} (h : containsSub ("style=\"".data) l = false) :
    tagStyleAttrs nonce l = l := replaceAllL_id h

lemma tagLinks_id {nonce l : Str} (h : containsSub ("<link".data) l = false) :
    tagLinks nonce l = l := scanLinksFuel_id nonce l.length l h

lemma tagLinksBundle_id {nonce l : Str} (h : containsSub ("<link".data) l = false) :
    tagLinksBundle nonce l = l := scanLinksBundleFuel_id nonce l.length l h

-- ### `replaceAll` really is "cut at the occurrences and rejoin"

lemma splitOnFuel_ne_nil (pat : Str) : ∀ (fuel : Nat) (l : Str), splitOnFuel pat fuel l ≠ []
  | 0, l => by simp [splitOnFuel]
  | _ + 1, [] => by simp [splitOnFuel]
  | fuel + 1, c :: cs => by
    cases heq : splitOnFuel pat fuel cs with
    | nil => exact absurd heq (splitOnFuel_ne_nil pat fuel cs)
    | cons s ss =>
      by_cases h : pat.isPrefixOf (c :: cs) = true
      · simp [splitOnFuel, h]
      · simp [splitOnFuel, h, heq]

lemma replaceAllFuel_eq_join (pat repl : Str) :
    ∀ (fuel : Nat) (l : Str),
      replaceAllFuel pat repl fuel l = joinWith repl (splitOnFuel pat fuel l)
  | 0, l => by simp [replaceAllFuel, splitOnFuel, joinWith]
  | _ + 1, [] => by simp [replaceAllFuel, splitOnFuel, joinWith]
  | fuel + 1, c :: cs => by
    by_cases h : pat.isPrefixOf (c :: cs) = true
    · have ih := replaceAllFuel_eq_join pat repl fuel ((c :: cs).drop pat.length)
      cases heq : splitOnFuel pat fuel ((c :: cs).drop pat.length) with
      | nil => exact absurd heq (splitOnFuel_ne_nil _ _ _)
      | cons s ss =>
        cases ss <;> simp [replaceAllFuel, splitOnFuel, h, ih, heq, joinWith]
    · have ih := replaceAllFuel_eq_join pat repl fuel cs
      cases heq : splitOnFuel pat fuel cs with
      | nil => exact absurd heq (splitOnFuel_ne_nil _ _ _)
      | cons s ss =>
        cases ss <;> simp [replaceAllFuel, splitOnFuel, h, ih, heq, joinWith]

-- ### Claims C1, C5, C9

/-- Claim C1: the rewrite's script-tagging and style-tagging steps insert the
attribute text ` nonce="<value>"` immediately after every occurrence of the
case-sensitive tokens `<script` and `<style` (the document is cut at the
occurrences and rejoined with the token followed by the attribute), and the
spec's concrete example holds through the full rewrite. -/
theorem c1_script_style_tagging :
    (∀ (nonce html : Str),
      tagScripts nonce html =
        insertAfterOccurrences ("<script".data) (" nonce=\"".data ++ nonce ++ "\"".data) html ∧
      tagStyles nonce html =
        insertAfterOccurrences ("<style".data) (" nonce=\"".data ++ nonce ++ "\"".data) html) ∧
    transformIndexHtml ("abc".data) ("<script src=\"a.js\"></script>".data) =
      "<script nonce=\"abc\" src=\"a.js\"></script>".data := by
  refine ⟨fun nonce html => ⟨?_, ?_⟩, by decide⟩
  · exact replaceAllFuel_eq_join ("<script".data)
      ("<script nonce=\"".data ++ nonce ++ "\"".data) html.length html
  · exact replaceAllFuel_eq_join ("<style".data)
      ("<style nonce=\"".data ++ nonce ++ "\"".data) html.length html

/-- Claim C5 (amended): whenever the document produced by tagging steps 1-4
still contains no `</head>`, the closing-tag step does not fire — the full
rewrite equals steps 1-4 and no dynamic-injection shim is inserted.  (The
rewrite is a total function of the document text, so no error is raised on
malformed input.) -/
theorem c5_no_head_no_shim (nonce html : Str)
    (h : containsSub ("</head>".data) (devTagSteps nonce html) = false) :
    transformIndexHtml nonce html = devTagSteps nonce html :=
  replaceFirst_id _ _ _ h

/-- Witness for C5: a head-less document with a script tag is fully tagged
and receives no shim. -/
theorem c5_no_head_no_shim_witness :
    transformIndexHtml ("abc".data) ("<p>x</p><script src=\"a.js\"></script>".data) =
      devTagSteps ("abc".data) ("<p>x</p><script src=\"a.js\"></script>".data) :=
  c5_no_head_no_shim ("abc".data) ("<p>x</p><script src=\"a.js\"></script>".data) (by decide)

/-- Counterexample to claim C5 as stated: this document contains no `</head>`
(and no shim text), yet the link step's whitespace trimming manufactures a
`</head>`, so the rewrite does insert the dynamic-injection shim. -/
theorem c5_shim_counterexample :
    containsSub ("</head>".data) ("<link nonce=x </head >".data) = false ∧
    containsSub ("createElement".data) ("<link nonce=x </head >".data) = false ∧
    containsSub ("createElement".data)
      (transformIndexHtml ("abc".data) ("<link nonce=x </head >".data)) = true :=
  ⟨by decide, by decide, by decide⟩

/-- Claim C9: a document containing none of the five trigger substrings
`<script`, `<style`, `style="`, `<link`, `</head>` is returned unchanged by
the rewrite, whatever the nonce value is. -/
theorem c9_rewrite_identity (nonce html : Str)
    (hScript : containsSub ("<script".data) html = false)
    (hStyle : containsSub ("<style".data) html = false)
    (hStyleAttr : containsSub ("style=\"".data) html = false)
    (hLink : containsSub ("<link".data) html = false)
    (hHead : containsSub ("</head>".data) html = false) :
    transformIndexHtml nonce html = html := by
  unfold transformIndexHtml devTagSteps
  rw [tagScripts_id hScript, tagStyles_id hStyle, tagLinks_id hLink,
    tagStyleAttrs_id hStyleAttr, replaceFirst_id _ _ _ hHead]

/-- Witness for C9 at a concrete trigger-free document. -/
theorem c9_rewrite_identity_witness :
    transformIndexHtml ("xyz".data) ("<p>hello</p>".data) = "<p>hello</p>".data :=
  c9_rewrite_identity ("xyz".data) ("<p>hello</p>".data)
    (by decide) (by decide) (by decide) (by decide) (by decide)


-- ### Claims C2, C7, C8

/-- Claim C2 (code behaviour at the failing input): the rewrite injects the
nonce marker inside the `style` attribute's value instead of adding a
sibling `nonce` attribute: `<div style="color:red">` becomes
`<div style="nonce="abc" color:red">`, so the style value is changed and the
sibling-attribute form mandated by the spec is not produced. -/
theorem c2_inline_style_pollution :
    transformIndexHtml ("abc".data) ("<div style=\"color:red\">".data) =
      "<div style=\"nonce=\"abc\" color:red\">".data ∧
    transformIndexHtml ("abc".data) ("<div style=\"color:red\">".data) ≠
      "<div style=\"color:red\" nonce=\"abc\">".data :=
  ⟨by decide, by decide⟩

/-- Claim C7: toggling the report-only flag never changes the assembled
policy value, nor any other emitted header; it selects only the name under
which the policy is emitted. -/
theorem c7_report_only_name_only (o : Options) (nonce : Str) (b : Bool) :
    csp { o with reportOnly := b } nonce = csp o nonce ∧
    emitHeaders { o with reportOnly := true } nonce =
      ("Content-Security-Policy-Report-Only".data, csp o nonce) :: auxHeaders o ∧
    emitHeaders { o with reportOnly := false } nonce =
      ("Content-Security-Policy".data, csp o nonce) :: auxHeaders o :=
  ⟨rfl, rfl, rfl⟩

/-- Claim C8: the nonce is computed exactly once, in `configResolved`.  In
the serve phase the middleware passes the state through unchanged, so two
sequential requests emit identical headers and the HTML transform uses the
same nonce; in the build phase the shared nonce is the configured
placeholder verbatim, and `generateBundle` bakes that one placeholder into
every rewritten asset. -/
theorem c8_single_nonce (createNonce : Nat → Str) (now : Nat) (o : Options)
    (html : Str) (bundle : List (Str × OutputChunk)) :
    (middleware o (configResolved createNonce now o Command.serve)).2 =
      configResolved createNonce now o Command.serve ∧
    (middleware o ((middleware o (configResolved createNonce now o Command.serve)).2)).1 =
      (middleware o (configResolved createNonce now o Command.serve)).1 ∧
    transformHtmlHook ((middleware o (configResolved createNonce now o Command.serve)).2) html =
      transformHtmlHook (configResolved createNonce now o Command.serve) html ∧
    (configResolved createNonce now o Command.build).sharedNonce = o.noncePlaceholder ∧
    generateBundleHook (configResolved createNonce now o Command.build) bundle =
      generateBundle o.noncePlaceholder bundle :=
  ⟨rfl, rfl, rfl, rfl, rfl⟩

-- ### Bundle-phase claims C4 and C10

lemma foldl_append_eq_map {α β : Type} (f : α → β) :
    ∀ (l : List α) (acc : List β), l.foldl (fun acc e => acc ++ [f e]) acc = acc ++ l.map f
  | [], acc => by simp
  | a :: as, acc => by simp [foldl_append_eq_map f as (acc ++ [f a])]

lemma generateBundle_eq_map (nonce : Str) (bundle : List (Str × OutputChunk)) :
    generateBundle nonce bundle = bundle.map (fun e => (e.1, rewriteChunk nonce e.2)) := by
  unfold generateBundle
  simpa using foldl_append_eq_map (fun e => (e.1, rewriteChunk nonce e.2)) bundle []

/-- Claim C4: bundle-phase rewriting maps every entry through `rewriteChunk`:
an `'asset'` entry whose `fileName` ends in `.html` gets exactly tagging
steps 1-4 applied to its source — script, style, bundle-regex link and
inline-style tagging, with no shim step — while every other entry, be it a
non-`.html` asset or a code chunk, reappears byte-for-byte unchanged. -/
theorem c4_bundle_scope (nonce : Str) (bundle : List (Str × OutputChunk)) (k : Str)
    (ch : OutputChunk) (hmem : (k, ch) ∈ bundle) :
    generateBundle nonce bundle = bundle.map (fun e => (e.1, rewriteChunk nonce e.2)) ∧
    ((ch.kind = ChunkKind.asset ∧ (".html".data).isSuffixOf ch.fileName = true) →
      (k, { ch with source := tagStyleAttrs nonce (tagLinksBundle nonce
          (tagStyles nonce (tagScripts nonce ch.source))) }) ∈ generateBundle nonce bundle) ∧
    (¬ (ch.kind = ChunkKind.asset ∧ (".html".data).isSuffixOf ch.fileName = true) →
      (k, ch) ∈ generateBundle nonce bundle) := by
  refine ⟨generateBundle_eq_map nonce bundle, ?_, ?_⟩
  · intro hcond
    rw [generateBundle_eq_map]
    have he : (k, { ch with source := tagStyleAttrs nonce (tagLinksBundle nonce
        (tagStyles nonce (tagScripts nonce ch.source))) }) =
        (fun e => (e.1, rewriteChunk nonce e.2)) (k, ch) := by
      show _ = (k, rewriteChunk nonce ch)
      unfold rewriteChunk
      rw [if_pos hcond]
    rw [he]
    exact List.mem_map_of_mem _ hmem
  · intro hcond
    rw [generateBundle_eq_map]
    have he : (k, ch) = (fun e => (e.1, rewriteChunk nonce e.2)) (k, ch) := by
      show _ = (k, rewriteChunk nonce ch)
      unfold rewriteChunk
      rw [if_neg hcond]
    rw [he]
    exact List.mem_map_of_mem _ hmem

/-- A sample `.html` asset used by the bundle-phase witnesses. -/
def sampleHtmlChunk : OutputChunk :=
  ⟨ChunkKind.asset, "index.html".data, "<script></script>".data, []⟩

/-- A sample code chunk used by the bundle-phase witnesses. -/
def sampleJsChunk : OutputChunk :=
  ⟨ChunkKind.chunk, "app.js".data, "console.log(1)".data, []⟩

/-- A sample two-entry bundle used by the bundle-phase witnesses. -/
def sampleBundle : List (Str × OutputChunk) :=
  [("index.html".data, sampleHtmlChunk), ("app.js".data, sampleJsChunk)]

/-- Witness for C4: in the sample bundle, the `.html` asset's source is
rewritten by the four tagging steps. -/
theorem c4_bundle_scope_witness :
    ("index.html".data,
      { sampleHtmlChunk with source := tagStyleAttrs ("p".data) (tagLinksBundle ("p".data)
          (tagStyles ("p".data) (tagScripts ("p".data) sampleHtmlChunk.source))) }) ∈
      generateBundle ("p".data) sampleBundle :=
  (c4_bundle_scope ("p".data) sampleBundle ("index.html".data) sampleHtmlChunk
    (by decide)).2.1 (by decide)

/-- Claim C10: bundle-phase rewriting preserves the key sequence (no entries
added or removed) and, for every entry, every field of the chunk other than
`source`: its type, its file name and the spread-copied remaining fields. -/
theorem c10_bundle_frame (nonce : Str) (bundle : List (Str × OutputChunk)) :
    (generateBundle nonce bundle).map Prod.fst = bundle.map Prod.fst ∧
    ∀ k ch, (k, ch) ∈ bundle →
      (k, rewriteChunk nonce ch) ∈ generateBundle nonce bundle ∧
      (rewriteChunk nonce ch).kind = ch.kind ∧
      (rewriteChunk nonce ch).fileName = ch.fileName ∧
      (rewriteChunk nonce ch).others = ch.others := by
  constructor
  · rw [generateBundle_eq_map]
    simp
  · intro k ch hmem
    refine ⟨?_, ?_, ?_, ?_⟩
    · rw [generateBundle_eq_map]
      exact List.mem_map_of_mem _ hmem
    · unfold rewriteChunk
      split <;> rfl
    · unfold rewriteChunk
      split <;> rfl
    · unfold rewriteChunk
      split <;> rfl

/-- Witness for C10: the code chunk of the sample bundle keeps its key and
all of its fields. -/
theorem c10_bundle_frame_witness :
    ("app.js".data, rewriteChunk ("p".data) sampleJsChunk) ∈
        generateBundle ("p".data) sampleBundle ∧
      (rewriteChunk ("p".data) sampleJsChunk).kind = sampleJsChunk.kind ∧
      (rewriteChunk ("p".data) sampleJsChunk).fileName = sampleJsChunk.fileName ∧
      (rewriteChunk ("p".data) sampleJsChunk).others = sampleJsChunk.others :=
  (c10_bundle_frame ("p".data) sampleBundle).2 ("app.js".data) sampleJsChunk (by decide)


-- ### Claim C6: counting directive names in the assembled policy

lemma isPrefixOf_append_sep {c : Char} :
    ∀ (pat : Str), c ∉ pat → ∀ (u v : Str),
      pat.isPrefixOf (u ++ c :: v) = pat.isPrefixOf u
  | [], _, _, _ => by simp [List.isPrefixOf]
  | p :: ps, hc, [], v => by
    have hne : p ≠ c := by
      rintro rfl
      exact hc (List.mem_cons_self _ _)
    have hpc : (p == c) = false := beq_eq_false_iff_ne.mpr hne
    simp [List.isPrefixOf, hpc]
  | p :: ps, hc, a :: as, v => by
    have hc2 : c ∉ ps := fun h => hc (List.mem_cons_of_mem _ h)
    simp [List.isPrefixOf, isPrefixOf_append_sep ps hc2 as v]

lemma countPrefixOcc_append_sep {pat : Str} {c : Char} (hne : pat ≠ []) (hc : c ∉ pat) :
    ∀ (u v : Str),
      countPrefixOcc pat (u ++ c :: v) = countPrefixOcc pat u + countPrefixOcc pat v
  | [], v => by
    cases pat with
    | nil => exact absurd rfl hne
    | cons p ps =>
      have hne2 : p ≠ c := by
        rintro rfl
        exact hc (List.mem_cons_self _ _)
      have hpc : (p == c) = false := beq_eq_false_iff_ne.mpr hne2
      simp [countPrefixOcc, List.isPrefixOf, hpc]
  | a :: as, v => by
    have h := isPrefixOf_append_sep pat hc (a :: as) v
    have ih := countPrefixOcc_append_sep hne hc as v
    simp only [List.cons_append, countPrefixOcc, List.append_eq] at h ⊢
    simp only [h, ih]
    omega

lemma countPrefixOcc_cons_notmem {pat : Str} {c : Char} (hne : pat ≠ []) (hc : c ∉ pat)
    (v : Str) : countPrefixOcc pat (c :: v) = countPrefixOcc pat v := by
  have h := countPrefixOcc_append_sep hne hc [] v
  simpa [countPrefixOcc] using h

lemma countPrefixOcc_joinSemi {pat : Str} (hne : pat ≠ []) (hsemi : ';' ∉ pat)
    (hsp : ' ' ∉ pat) :
    ∀ (items : List Str),
      countPrefixOcc pat (joinSemi items) = (items.map (countPrefixOcc pat)).sum
  | [] => by simp [joinSemi, joinWith, countPrefixOcc]
  | [x] => by simp [joinSemi, joinWith]
  | x :: y :: rest => by
    have ih := countPrefixOcc_joinSemi hne hsemi hsp (y :: rest)
    have hx : joinSemi (x :: y :: rest) = x ++ ';' :: ' ' :: joinSemi (y :: rest) := by
      simp [joinSemi, joinWith]
    rw [hx, countPrefixOcc_append_sep hne hsemi, countPrefixOcc_cons_notmem hne hsp, ih]
    simp

lemma countPrefixOcc_clause {pat : Str} (hne : pat ≠ []) (hsp : ' ' ∉ pat)
    (nmSp v nm : Str) (hsplit : nmSp = nm ++ [' ']) :
    countPrefixOcc pat (nmSp ++ v) = countPrefixOcc pat nm + countPrefixOcc pat v := by
  rw [hsplit, List.append_assoc]
  exact countPrefixOcc_append_sep hne hsp nm v

/-- The twelve directive clauses of the policy, in source order. -/
def cspClauses (o : Options) (nonce : Str) : List Str :=
  ["default-src ".data ++ o.defaultSrc,
   "script-src ".data ++ scriptSrcValue o nonce,
   "style-src ".data ++ styleSrcValue o nonce,
   "img-src ".data ++ o.imgSrc,
   "font-src ".data ++ o.fontSrc,
   "object-src ".data ++ o.objectSrc,
   "base-uri ".data ++ o.baseUri,
   "frame-src ".data ++ o.frameSrc,
   "form-action ".data ++ o.formAction,
   "frame-ancestors ".data ++ o.frameAncestors,
   "worker-src ".data ++ o.workerSrc,
   "connect-src ".data ++ o.connectSrc]

lemma joinSemi_ends (z : Str) : ∀ (items : List Str), ∃ pre, joinSemi (items ++ [z]) = pre ++ z
  | [] => ⟨[], by simp [joinSemi, joinWith]⟩
  | x :: rest => by
    obtain ⟨pre, hp⟩ := joinSemi_ends z rest
    cases rest with
    | nil => exact ⟨x ++ "; ".data, by simp [joinSemi, joinWith]⟩
    | cons y ys =>
      refine ⟨x ++ "; ".data ++ pre, ?_⟩
      have hstep : joinSemi ((x :: y :: ys) ++ [z]) =
          x ++ "; ".data ++ joinSemi ((y :: ys) ++ [z]) := by
        simp [joinSemi, joinWith]
      rw [hstep, hp]
      simp

/-- Claim C6 (amended): the assembled policy is exactly the twelve directive
clauses `<name> <value>` in the fixed order, joined with `'; '` and ending
with the literal clause `upgrade-insecure-requests` (`script-src` and
`style-src` resolving through the configured function when present, else to
`'self' 'nonce-<nonce>'`); and whenever no resolved directive value itself
contains a directive name, each of the twelve names occurs exactly once in
the policy string. -/
theorem c6_policy_assembly (o : Options) (nonce : Str) :
    csp o nonce =
      joinSemi (List.zipWith (fun nm v => nm ++ ' ' :: v) directiveNames
        (resolvedValues o nonce) ++ ["upgrade-insecure-requests".data]) ∧
    (∃ pre, csp o nonce = pre ++ "upgrade-insecure-requests".data) ∧
    ((∀ v ∈ resolvedValues o nonce, ∀ nm ∈ directiveNames, countPrefixOcc nm v = 0) →
      ∀ nm ∈ directiveNames, countPrefixOcc nm (csp o nonce) = 1) := by
  refine ⟨rfl, joinSemi_ends ("upgrade-insecure-requests".data) (cspClauses o nonce), ?_⟩
  intro hv nm hnm
  have h0 : ∀ v ∈ resolvedValues o nonce, countPrefixOcc nm v = 0 :=
    fun v hv2 => hv v hv2 nm hnm
  have hd : countPrefixOcc nm o.defaultSrc = 0 := h0 _ (by simp [resolvedValues])
  have hsc : countPrefixOcc nm (scriptSrcValue o nonce) = 0 := h0 _ (by simp [resolvedValues])
  have hst : countPrefixOcc nm (styleSrcValue o nonce) = 0 := h0 _ (by simp [resolvedValues])
  have him : countPrefixOcc nm o.imgSrc = 0 := h0 _ (by simp [resolvedValues])
  have hfo : countPrefixOcc nm o.fontSrc = 0 := h0 _ (by simp [resolvedValues])
  have hob : countPrefixOcc nm o.objectSrc = 0 := h0 _ (by simp [resolvedValues])
  have hba : countPrefixOcc nm o.baseUri = 0 := h0 _ (by simp [resolvedValues])
  have hfr : countPrefixOcc nm o.frameSrc = 0 := h0 _ (by simp [resolvedValues])
  have hfa : countPrefixOcc nm o.formAction = 0 := h0 _ (by simp [resolvedValues])
  have han : countPrefixOcc nm o.frameAncestors = 0 := h0 _ (by simp [resolvedValues])
  have hwo : countPrefixOcc nm o.workerSrc = 0 := h0 _ (by simp [resolvedValues])
  have hco : countPrefixOcc nm o.connectSrc = 0 := h0 _ (by simp [resolvedValues])
  have hcsp : csp o nonce =
      joinSemi (cspClauses o nonce ++ ["upgrade-insecure-requests".data]) := rfl
  fin_cases hnm <;>
    (rw [hcsp, countPrefixOcc_joinSemi (by decide) (by decide) (by decide)]
     simp only [cspClauses, List.map_append, List.map_cons, List.map_nil,
       List.sum_append, List.sum_cons, List.sum_nil]
     rw [countPrefixOcc_clause (by decide) (by decide) ("default-src ".data)
           o.defaultSrc ("default-src".data) (by decide),
         countPrefixOcc_clause (by decide) (by decide) ("script-src ".data)
           (scriptSrcValue o nonce) ("script-src".data) (by decide),
         countPrefixOcc_clause (by decide) (by decide) ("style-src ".data)
           (styleSrcValue o nonce) ("style-src".data) (by decide),
         countPrefixOcc_clause (by decide) (by decide) ("img-src ".data)
           o.imgSrc ("img-src".data) (by decide),
         countPrefixOcc_clause (by decide) (by decide) ("font-src ".data)
           o.fontSrc ("font-src".data) (by decide),
         countPrefixOcc_clause (by decide) (by decide) ("object-src ".data)
           o.objectSrc ("object-src".data) (by decide),
         countPrefixOcc_clause (by decide) (by decide) ("base-uri ".data)
           o.baseUri ("base-uri".data) (by decide),
         countPrefixOcc_clause (by decide) (by decide) ("frame-src ".data)
           o.frameSrc ("frame-src".data) (by decide),
         countPrefixOcc_clause (by decide) (by decide) ("form-action ".data)
           o.formAction ("form-action".data) (by decide),
         countPrefixOcc_clause (by decide) (by decide) ("frame-ancestors ".data)
           o.frameAncestors ("frame-ancestors".data) (by decide),
         countPrefixOcc_clause (by decide) (by decide) ("worker-src ".data)
           o.workerSrc ("worker-src".data) (by decide),
         countPrefixOcc_clause (by decide) (by decide) ("connect-src ".data)
           o.connectSrc ("connect-src".data) (by decide),
         hd, hsc, hst, him, hfo, hob, hba, hfr, hfa, han, hwo, hco]
     decide)

/-- Witness for C6 at the default configuration and nonce `abc`: no default
directive value mentions a directive name, and `script-src` occurs exactly
once in the assembled policy. -/
theorem c6_policy_assembly_witness :
    countPrefixOcc ("script-src".data) (csp defaultOptions ("abc".data)) = 1 :=
  (c6_policy_assembly defaultOptions ("abc".data)).2.2 (by decide)
    ("script-src".data) (by decide)

/-- Counterexample to claim C6 as stated: a configuration may mention a
directive name inside a directive value; with `imgSrc := "font-src"` the
assembled policy contains two occurrences of `font-src`, not exactly one. -/
theorem c6_count_counterexample :
    countPrefixOcc ("font-src".data)
      (csp { defaultOptions with imgSrc := "font-src".data } ("a".data)) = 2 := by
  decide


-- ### Claim C3: characterizing the link-tagging step

lemma takeWhile_append_all {p : Char → Bool} :
    ∀ {xs : Str}, (∀ c ∈ xs, p c = true) → ∀ (ys : Str),
      (xs ++ ys).takeWhile p = xs ++ ys.takeWhile p
  | [], _, ys => rfl
  | a :: as, h, ys => by
    have ha : p a = true := h a (List.mem_cons_self _ _)
    have has : ∀ c ∈ as, p c = true := fun c hc => h c (List.mem_cons_of_mem _ hc)
    simp [List.takeWhile_cons, ha, takeWhile_append_all has ys]

lemma dropWhile_append_all {p : Char → Bool} :
    ∀ {xs : Str}, (∀ c ∈ xs, p c = true) → ∀ (ys : Str),
      (xs ++ ys).dropWhile p = ys.dropWhile p
  | [], _, ys => rfl
  | a :: as, h, ys => by
    have ha : p a = true := h a (List.mem_cons_self _ _)
    have has : ∀ c ∈ as, p c = true := fun c hc => h c (List.mem_cons_of_mem _ hc)
    simp [List.dropWhile_cons, ha, dropWhile_append_all has ys]

lemma takeWhile_cons_false {p : Char → Bool} {a : Char} (h : p a = false) (l : Str) :
    (a :: l).takeWhile p = [] := by
  simp [List.takeWhile_cons, h]

lemma takeWhile_nil_of_head {p : Char → Bool} {xs : Str} (h : xs.takeWhile p = [])
    {ys : Str} (hys : ys.takeWhile p = []) : (xs ++ ys).takeWhile p = [] := by
  cases xs with
  | nil => simpa using hys
  | cons a as =>
    cases hpa : p a with
    | true => simp [List.takeWhile_cons, hpa] at h
    | false => simp [List.takeWhile_cons, hpa]

lemma takeWhile_append_nil_left {p : Char → Bool} {xs : Str} (hne : xs ≠ [])
    (h : xs.takeWhile p = []) (ys : Str) : (xs ++ ys).takeWhile p = [] := by
  cases xs with
  | nil => exact absurd rfl hne
  | cons a as =>
    cases hpa : p a with
    | true => simp [List.takeWhile_cons, hpa] at h
    | false => simp [List.takeWhile_cons, hpa]

lemma takeWhile_append_nil_left2 {p : Char → Bool} {xs : Str} (hne : xs ≠ [])
    (h : xs.takeWhile p = []) (ys : Str) :
    (xs ++ ys) ≠ [] ∧ (xs ++ ys).takeWhile p = [] := by
  refine ⟨?_, takeWhile_append_nil_left hne h ys⟩
  cases xs with
  | nil => exact absurd rfl hne
  | cons a as => simp

lemma takeWhile_nil_of_append_left {p : Char → Bool} {xs t : Str}
    (h : (xs ++ t).takeWhile p = []) : xs.takeWhile p = [] := by
  cases xs with
  | nil => rfl
  | cons a as =>
    cases hpa : p a with
    | true => simp [List.takeWhile_cons, hpa] at h
    | false => simp [List.takeWhile_cons, hpa]

lemma dropWhile_eq_self_of_takeWhile_nil {p : Char → Bool} {xs : Str}
    (h : xs.takeWhile p = []) : xs.dropWhile p = xs := by
  cases xs with
  | nil => rfl
  | cons a as =>
    cases hpa : p a with
    | true => simp [List.takeWhile_cons, hpa] at h
    | false => simp [List.dropWhile_cons, hpa]

lemma trimJs_eq_self {l : Str} (h1 : l.takeWhile isJsWs = [])
    (h2 : l.reverse.takeWhile isJsWs = []) : trimJs l = l := by
  unfold trimJs
  rw [dropWhile_eq_self_of_takeWhile_nil h1, dropWhile_eq_self_of_takeWhile_nil h2]
  simp

lemma stripSelfClose_eq_self {l : Str}
    (hd : ((l.reverse.dropWhile isJsWs).headD ' ' == '/') = false) :
    stripSelfClose l = l := by
  show (if (((l.reverse.dropWhile isJsWs).headD ' ') == '/') = true
      then (((l.reverse.dropWhile isJsWs).drop 1).dropWhile isJsWs).reverse else l) = l
  rw [hd]
  simp

lemma stripSelfClose_eq_slash {l d : Str}
    (hd : l.reverse.dropWhile isJsWs = '/' :: d) :
    stripSelfClose l = (d.dropWhile isJsWs).reverse := by
  unfold stripSelfClose
  simp [hd]

lemma stripSelfClose_eq_self_of_last {l : Str} {c : Char} {t : Str}
    (hrev : l.reverse = c :: t) (hws : isJsWs c = false) (hc : (c == '/') = false) :
    stripSelfClose l = l := by
  apply stripSelfClose_eq_self
  rw [hrev]
  simp [List.dropWhile_cons, hws, hc]

lemma stripSelfClose_append (l : Str) : ∃ t, l = stripSelfClose l ++ t := by
  cases hd : l.reverse.dropWhile isJsWs with
  | nil =>
    refine ⟨[], ?_⟩
    rw [stripSelfClose_eq_self (by simp [hd]), List.append_nil]
  | cons c d =>
    by_cases hc : c = '/'
    · subst hc
      rw [stripSelfClose_eq_slash hd]
      have h1 : l.reverse.takeWhile isJsWs ++ l.reverse.dropWhile isJsWs = l.reverse :=
        List.takeWhile_append_dropWhile _ _
      rw [hd] at h1
      refine ⟨(l.reverse.takeWhile isJsWs ++ '/' :: d.takeWhile isJsWs).reverse, ?_⟩
      rw [← List.reverse_append]
      have h3 : (l.reverse.takeWhile isJsWs ++ '/' :: d.takeWhile isJsWs) ++
          d.dropWhile isJsWs = l.reverse := by
        rw [List.append_assoc, List.cons_append, List.takeWhile_append_dropWhile]
        exact h1
      rw [h3]
      simp
    · refine ⟨[], ?_⟩
      rw [stripSelfClose_eq_self ?_, List.append_nil]
      rw [hd]
      simpa using beq_eq_false_iff_ne.mpr hc

lemma containsSub_middle (pat : Str) (hne : pat ≠ []) :
    ∀ (u v : Str), containsSub pat (u ++ pat ++ v) = true
  | [], v => by
    cases pat with
    | nil => exact absurd rfl hne
    | cons p ps =>
      have h := isPrefixOf_self_append (p :: ps) v
      simp only [List.cons_append, List.nil_append] at h ⊢
      simp only [containsSub]
      rw [h, Bool.true_or]
  | a :: as, v => by
    have ih := containsSub_middle pat hne as v
    simp only [List.cons_append] at ih ⊢
    simp only [containsSub]
    rw [ih, Bool.or_true]

lemma scanLinksFuel_nil (nonce : Str) : ∀ (f : Nat), scanLinksFuel nonce f [] = []
  | 0 => rfl
  | _ + 1 => rfl

lemma contains_append_gt : ∀ (xs ys : Str), ((xs ++ '>' :: ys).contains '>') = true
  | [], ys => by simp
  | a :: as, ys => by simp [contains_append_gt as ys]

lemma scanLinksFuel_single (nonce ws attrs : Str) (f : Nat)
    (hws : ws ≠ []) (hwsall : ∀ c ∈ ws, isJsWs c = true)
    (hfront : attrs.takeWhile isJsWs = [])
    (hgt : '>' ∉ attrs) :
    scanLinksFuel nonce (f + 1) ("<link".data ++ ws ++ attrs ++ ['>']) =
      linkReplacement nonce attrs := by
  obtain ⟨w, ws2, rfl⟩ : ∃ w ws2, ws = w :: ws2 := by
    cases ws with
    | nil => exact absurd rfl hws
    | cons w ws2 => exact ⟨w, ws2, rfl⟩
  have hgtall : ∀ c ∈ attrs, (!(c == '>')) = true := by
    intro c hc
    have : c ≠ '>' := fun h => hgt (h ▸ hc)
    simp [this]
  have htwgt : (['>'] : Str).takeWhile isJsWs = [] := by decide
  have hattrTw : (attrs ++ ['>']).takeWhile isJsWs = [] :=
    takeWhile_nil_of_head hfront htwgt
  show scanLinksFuel nonce (f + 1)
      ('<' :: ('l' :: 'i' :: 'n' :: 'k' :: ((w :: ws2) ++ attrs ++ ['>']))) = _
  rw [scanLinksFuel]
  rw [if_pos (by simp [List.isPrefixOf])]
  have hdrop : ('<' :: ('l' :: 'i' :: 'n' :: 'k' :: ((w :: ws2) ++ attrs ++ ['>']))).drop 5 =
      (w :: ws2) ++ (attrs ++ ['>']) := by simp
  have htw : ((w :: ws2) ++ (attrs ++ ['>'])).takeWhile isJsWs = w :: ws2 := by
    rw [takeWhile_append_all hwsall, hattrTw, List.append_nil]
  have hdw : ((w :: ws2) ++ (attrs ++ ['>'])).dropWhile isJsWs = attrs ++ ['>'] := by
    rw [dropWhile_append_all hwsall, dropWhile_eq_self_of_takeWhile_nil hattrTw]
  have hcontains : ((attrs ++ ['>']).contains '>') = true := contains_append_gt attrs []
  have htwa : (attrs ++ ['>']).takeWhile (fun d => !(d == '>')) = attrs := by
    rw [takeWhile_append_all hgtall]
    simp
  have hdwa : (attrs ++ ['>']).dropWhile (fun d => !(d == '>')) = ['>'] := by
    rw [dropWhile_append_all hgtall]
    simp
  simp only [hdrop, htw, hdw, hcontains, htwa, hdwa]
  simp [scanLinksFuel_nil]

lemma tagLinks_single (nonce ws attrs : Str)
    (hws : ws ≠ []) (hwsall : ∀ c ∈ ws, isJsWs c = true)
    (hfront : attrs.takeWhile isJsWs = [])
    (hgt : '>' ∉ attrs) :
    tagLinks nonce ("<link".data ++ ws ++ attrs ++ ['>']) = linkReplacement nonce attrs := by
  unfold tagLinks
  have hsh : "<link".data ++ ws ++ attrs ++ ['>'] =
      '<' :: ("link".data ++ ws ++ attrs ++ ['>']) := rfl
  rw [hsh, List.length_cons]
  exact scanLinksFuel_single nonce ws attrs _ hws hwsall hfront hgt


lemma tagLinks_append_case (nonce ws attrs : Str)
    (hws : ws ≠ []) (hwsall : ∀ c ∈ ws, isJsWs c = true)
    (hfront : attrs.takeWhile isJsWs = [])
    (hgt : '>' ∉ attrs)
    (hsne : stripSelfClose attrs ≠ [])
    (hno : containsSub ("nonce=".data) (stripSelfClose attrs) = false) :
    tagLinks nonce ("<link".data ++ ws ++ attrs ++ ['>']) =
      "<link ".data ++ stripSelfClose attrs ++ " nonce=\"".data ++ nonce ++ "\">".data := by
  rw [tagLinks_single nonce ws attrs hws hwsall hfront hgt]
  obtain ⟨t, ht⟩ := stripSelfClose_append attrs
  have hfront1 : (stripSelfClose attrs).takeWhile isJsWs = [] := by
    apply takeWhile_nil_of_append_left (t := t)
    rw [← ht]
    exact hfront
  show "<link ".data ++ trimJs (if containsSub ("nonce=".data) (stripSelfClose attrs) = true
      then stripSelfClose attrs
      else stripSelfClose attrs ++ " nonce=\"".data ++ nonce ++ "\"".data) ++ ">".data = _
  rw [hno]
  simp only [Bool.false_eq_true, if_false]
  have htrim : trimJs (stripSelfClose attrs ++ " nonce=\"".data ++ nonce ++ "\"".data) =
      stripSelfClose attrs ++ " nonce=\"".data ++ nonce ++ "\"".data := by
    have s1 := takeWhile_append_nil_left2 hsne hfront1 (" nonce=\"".data)
    have s2 := takeWhile_append_nil_left2 s1.1 s1.2 nonce
    apply trimJs_eq_self (takeWhile_append_nil_left s2.1 s2.2 _)
    have hsh : stripSelfClose attrs ++ " nonce=\"".data ++ nonce ++ "\"".data =
        (stripSelfClose attrs ++ " nonce=\"".data ++ nonce) ++ ['"'] := by
      simp [List.append_assoc]
    rw [hsh, List.reverse_append]
    exact takeWhile_cons_false (by decide) _
  rw [htrim]
  simp [List.append_assoc]

lemma tagLinks_nonce_present (nonce ws attrs : Str)
    (hws : ws ≠ []) (hwsall : ∀ c ∈ ws, isJsWs c = true)
    (hfront : attrs.takeWhile isJsWs = [])
    (hgt : '>' ∉ attrs)
    (hyes : containsSub ("nonce=".data) (stripSelfClose attrs) = true) :
    tagLinks nonce ("<link".data ++ ws ++ attrs ++ ['>']) =
      "<link ".data ++ trimJs (stripSelfClose attrs) ++ ">".data := by
  rw [tagLinks_single nonce ws attrs hws hwsall hfront hgt]
  show "<link ".data ++ trimJs (if containsSub ("nonce=".data) (stripSelfClose attrs) = true
      then stripSelfClose attrs
      else stripSelfClose attrs ++ " nonce=\"".data ++ nonce ++ "\"".data) ++ ">".data = _
  rw [hyes]
  simp

lemma tagLinks_idem_append (nonce ws attrs : Str)
    (hws : ws ≠ []) (hwsall : ∀ c ∈ ws, isJsWs c = true)
    (hfront : attrs.takeWhile isJsWs = [])
    (hgt : '>' ∉ attrs)
    (hsne : stripSelfClose attrs ≠ [])
    (hno : containsSub ("nonce=".data) (stripSelfClose attrs) = false)
    (hn : '>' ∉ nonce) :
    tagLinks nonce (tagLinks nonce ("<link".data ++ ws ++ attrs ++ ['>'])) =
      tagLinks nonce ("<link".data ++ ws ++ attrs ++ ['>']) := by
  rw [tagLinks_append_case nonce ws attrs hws hwsall hfront hgt hsne hno]
  obtain ⟨t, ht⟩ := stripSelfClose_append attrs
  have hfront1 : (stripSelfClose attrs).takeWhile isJsWs = [] := by
    apply takeWhile_nil_of_append_left (t := t)
    rw [← ht]
    exact hfront
  have hgtA1 : '>' ∉ stripSelfClose attrs := by
    intro h
    apply hgt
    rw [ht]
    exact List.mem_append_left _ h
  have hshape : "<link ".data ++ stripSelfClose attrs ++ " nonce=\"".data ++ nonce ++ "\">".data =
      "<link".data ++ [' '] ++
        (stripSelfClose attrs ++ " nonce=\"".data ++ nonce ++ "\"".data) ++ ['>'] := by
    simp [List.append_assoc]
  rw [hshape]
  have s1 := takeWhile_append_nil_left2 hsne hfront1 (" nonce=\"".data)
  have s2 := takeWhile_append_nil_left2 s1.1 s1.2 nonce
  have hfront2 : (stripSelfClose attrs ++ " nonce=\"".data ++ nonce ++ "\"".data).takeWhile
      isJsWs = [] := takeWhile_append_nil_left s2.1 s2.2 _
  have hgt2 : '>' ∉ stripSelfClose attrs ++ " nonce=\"".data ++ nonce ++ "\"".data := by
    intro hmem
    rcases List.mem_append.mp hmem with hmem2 | h
    · rcases List.mem_append.mp hmem2 with hmem3 | h
      · rcases List.mem_append.mp hmem3 with h | h
        · exact hgtA1 h
        · simp at h
      · exact hn h
    · simp at h
  rw [tagLinks_single nonce [' ']
    (stripSelfClose attrs ++ " nonce=\"".data ++ nonce ++ "\"".data)
    (by simp) (by decide) hfront2 hgt2]
  have hstrip2 : stripSelfClose (stripSelfClose attrs ++ " nonce=\"".data ++ nonce ++
      "\"".data) = stripSelfClose attrs ++ " nonce=\"".data ++ nonce ++ "\"".data := by
    apply stripSelfClose_eq_self_of_last (c := '"')
      (t := (stripSelfClose attrs ++ " nonce=\"".data ++ nonce).reverse)
    · have hsh : stripSelfClose attrs ++ " nonce=\"".data ++ nonce ++ "\"".data =
          (stripSelfClose attrs ++ " nonce=\"".data ++ nonce) ++ ['"'] := by
        simp [List.append_assoc]
      rw [hsh, List.reverse_append]
      rfl
    · decide
    · decide
  have hsub : containsSub ("nonce=".data)
      (stripSelfClose attrs ++ " nonce=\"".data ++ nonce ++ "\"".data) = true := by
    have h := containsSub_middle ("nonce=".data) (by decide)
      (stripSelfClose attrs ++ [' ']) ('"' :: (nonce ++ ['"']))
    have hsh2 : (stripSelfClose attrs ++ [' ']) ++ "nonce=".data ++ ('"' :: (nonce ++ ['"'])) =
        stripSelfClose attrs ++ " nonce=\"".data ++ nonce ++ "\"".data := by
      simp [List.append_assoc]
    rw [hsh2] at h
    exact h
  show "<link ".data ++ trimJs (if containsSub ("nonce=".data)
      (stripSelfClose (stripSelfClose attrs ++ " nonce=\"".data ++ nonce ++ "\"".data)) = true
      then stripSelfClose (stripSelfClose attrs ++ " nonce=\"".data ++ nonce ++ "\"".data)
      else stripSelfClose (stripSelfClose attrs ++ " nonce=\"".data ++ nonce ++ "\"".data) ++
        " nonce=\"".data ++ nonce ++ "\"".data) ++ ">".data = _
  rw [hstrip2, hsub]
  simp only [if_true]
  have htrim2 : trimJs (stripSelfClose attrs ++ " nonce=\"".data ++ nonce ++ "\"".data) =
      stripSelfClose attrs ++ " nonce=\"".data ++ nonce ++ "\"".data := by
    apply trimJs_eq_self hfront2
    have hsh : stripSelfClose attrs ++ " nonce=\"".data ++ nonce ++ "\"".data =
        (stripSelfClose attrs ++ " nonce=\"".data ++ nonce) ++ ['"'] := by
      simp [List.append_assoc]
    rw [hsh, List.reverse_append]
    exact takeWhile_cons_false (by decide) _
  rw [htrim2]
  simp [List.append_assoc]


/-- Claim C3 (amended): for a link element `"<link" ++ ws ++ attrs ++ ">"`
(one whitespace run, a `>`-free attribute text starting with a
non-whitespace character and non-empty after the self-closing trim), with a
`>`-free nonce: if no `nonce=` occurs in the slash-trimmed attribute text,
the rewrite appends ` nonce="<value>"` before the closing `>` after trimming
any trailing self-closing slash and surrounding whitespace, and re-running
the link step on the result is the identity (idempotence, no duplicate
nonce); if a `nonce=` is already present, no nonce is appended — but the
element is normalized rather than left untouched: the trailing self-closing
slash is removed, the attribute text is trimmed and the whitespace after
`<link` collapses to one space.  The spec's §8 link example holds through
the full rewrite, and re-rewriting the rewritten element is the identity. -/
theorem c3_link_tagging (nonce ws attrs : Str)
    (hws : ws ≠ []) (hwsall : ∀ c ∈ ws, isJsWs c = true)
    (hfront : attrs.takeWhile isJsWs = [])
    (hgt : '>' ∉ attrs)
    (hsne : stripSelfClose attrs ≠ [])
    (hn : '>' ∉ nonce) :
    (containsSub ("nonce=".data) (stripSelfClose attrs) = false →
      tagLinks nonce ("<link".data ++ ws ++ attrs ++ ['>']) =
        "<link ".data ++ stripSelfClose attrs ++ " nonce=\"".data ++ nonce ++ "\">".data ∧
      tagLinks nonce (tagLinks nonce ("<link".data ++ ws ++ attrs ++ ['>'])) =
        tagLinks nonce ("<link".data ++ ws ++ attrs ++ ['>'])) ∧
    (containsSub ("nonce=".data) (stripSelfClose attrs) = true →
      tagLinks nonce ("<link".data ++ ws ++ attrs ++ ['>']) =
        "<link ".data ++ trimJs (stripSelfClose attrs) ++ ">".data) ∧
    transformIndexHtml ("abc".data) ("<link rel=\"stylesheet\" href=\"a.css\">".data) =
      "<link rel=\"stylesheet\" href=\"a.css\" nonce=\"abc\">".data ∧
    transformIndexHtml ("abc".data)
        ("<link rel=\"stylesheet\" href=\"a.css\" nonce=\"abc\">".data) =
      "<link rel=\"stylesheet\" href=\"a.css\" nonce=\"abc\">".data := by
  refine ⟨fun hno => ⟨tagLinks_append_case nonce ws attrs hws hwsall hfront hgt hsne hno,
      tagLinks_idem_append nonce ws attrs hws hwsall hfront hgt hsne hno hn⟩,
    fun hyes => tagLinks_nonce_present nonce ws attrs hws hwsall hfront hgt hyes,
    by decide, by decide⟩

/-- Witness for C3: `<link rel=x />` with nonce `abc` becomes
`<link rel=x nonce="abc">`. -/
theorem c3_link_tagging_witness :
    tagLinks ("abc".data) ("<link".data ++ [' '] ++ "rel=x /".data ++ ['>']) =
      "<link ".data ++ stripSelfClose ("rel=x /".data) ++ " nonce=\"".data ++ "abc".data ++
        "\">".data :=
  ((c3_link_tagging ("abc".data) [' '] ("rel=x /".data) (by decide) (by decide) (by decide)
    (by decide) (by decide) (by decide)).1 (by decide)).1

/-- Counterexample to claim C3 as stated: this link element already carries a
`nonce=` attribute, yet the rewrite does not leave it untouched — its
trailing self-closing slash and the surrounding whitespace are trimmed. -/
theorem c3_untouched_counterexample :
    containsSub ("nonce=".data) ("<link rel=x nonce=\"b\" />".data) = true ∧
    transformIndexHtml ("abc".data) ("<link rel=x nonce=\"b\" />".data) =
      "<link rel=x nonce=\"b\">".data ∧
    transformIndexHtml ("abc".data) ("<link rel=x nonce=\"b\" />".data) ≠
      "<link rel=x nonce=\"b\" />".data :=
  ⟨by decide, by decide, by decide⟩

end CspDev
